import Mathlib

/-!
Shallow embedding of the `pkcs7` Go package (files `pkcs7.go`): PKCS#7
block padding.  Byte slices are modelled as `List Nat` whose elements are
byte values (< 256 where a claim needs it), Go `int` parameters as `Int`,
and Go's `(value, error)` returns as `Except String (List Nat)` carrying
the exact error-message strings the source constructs with `errors.New`.
-/

namespace Pkcs7

/-- Message of `errors.New` in `Pad` when the block size is out of range. -/
def blockSizeErrMsg : String := "pkcs7: block size must be between 1 and 255 inclusive"

/-- Message of `errors.New` in `Unpad` for an empty input slice. -/
def emptyErrMsg : String := "pkcs7: source must not be empty slice"

/-- Message of `errors.New` in `Unpad` when the last byte is zero or a
padding byte does not match (the two branches share this exact string). -/
def padMismatchErrMsg : String := "pkcs7: invalid padding (last byte does not match padding)"

/-- Message of `errors.New` in `Unpad` when the last byte exceeds the
total length. -/
def padLengthErrMsg : String := "pkcs7: invalid padding (last byte is larger than total length)"

/-- The local variable `padLen := blockSize - len(src)%blockSize` of
`Pad`, computed in Go `int` arithmetic (Go `%` on ints is truncated
remainder, `Int.tmod`). -/
def padLenInt (src : List Nat) (blockSize : Int) : Int :=
  blockSize - Int.tmod (src.length : Int) blockSize

/-- Embedding of `Pad(src []byte, blockSize int)`.  The guard mirrors
`blockSize < 1 || blockSize > 255`; `byte(padLen)` is the truncation
`% 256`; `bytes.Repeat` of the single byte `byte(padLen)` taken
`padLen` times is `List.replicate`; `append(src, padding...)` is list
append. -/
def Pad (src : List Nat) (blockSize : Int) : Except String (List Nat) :=
  if blockSize < 1 ∨ blockSize > 255 then
    Except.error blockSizeErrMsg
  else
    Except.ok (src ++ List.replicate (padLenInt src blockSize).toNat
      ((padLenInt src blockSize).toNat % 256))

/-- `int(src[length-1])` in `Unpad`: the value of the last byte.  The
index `length - 1` is in bounds whenever the emptiness guard has passed,
so the `getD` default is never consulted on the paths `Unpad` takes. -/
def unpadMarker (src : List Nat) : Nat := src.getD (src.length - 1) 0

/-- `padding := src[origLen:]` in `Unpad`, with
`origLen = length - padLen`. -/
def unpadPadding (src : List Nat) : List Nat :=
  src.drop (src.length - unpadMarker src)

/-- The verification loop of `Unpad`:
`for i := 0; i < padLen; i++ { if padding[i] != byte(padLen) ... }`.
It reads `padding[i]` for every `i < padLen` and compares against
`byte(padLen)`, i.e. `padLen % 256`. -/
def checkPadding (padding : List Nat) (padLen : Nat) : Bool :=
  (List.range padLen).all (fun i => padding.getD i 0 == padLen % 256)

/-- Embedding of `Unpad(src []byte)`.  Guards and branches in source
order: empty input, zero marker, marker larger than length, byte
verification loop, and on success `src[:origLen]` via `List.take`. -/
def Unpad (src : List Nat) : Except String (List Nat) :=
  if src.length ≤ 0 then
    Except.error emptyErrMsg
  else if unpadMarker src = 0 then
    Except.error padMismatchErrMsg
  else if unpadMarker src > src.length then
    Except.error padLengthErrMsg
  else if checkPadding (unpadPadding src) (unpadMarker src) then
    Except.ok (src.take (src.length - unpadMarker src))
  else
    Except.error padMismatchErrMsg

/-- An `Unpad` result counts as an `InvalidPadding` failure exactly when
it is an error carrying one of the two padding-validation messages. -/
def isInvalidPadding : Except String (List Nat) → Bool
  | Except.error m => m == padMismatchErrMsg || m == padLengthErrMsg
  | Except.ok _ => false

instance : DecidableEq (Except String (List Nat)) := fun a b =>
  match a, b with
  | Except.error m, Except.error m' =>
      if h : m = m' then isTrue (by rw [h]) else isFalse (by simp [h])
  | Except.error _, Except.ok _ => isFalse (by simp)
  | Except.ok _, Except.error _ => isFalse (by simp)
  | Except.ok l, Except.ok l' =>
      if h : l = l' then isTrue (by rw [h]) else isFalse (by simp [h])

/-- Go truncated remainder agrees with `Nat` remainder on the
nonnegative operands `Pad` feeds it. -/
theorem tmod_cast_nat (n bs : Nat) :
    Int.tmod (n : Int) (bs : Int) = ((n % bs : Nat) : Int) :=
  (Int.ofNat_tmod n bs).symm

/-- For an in-range block size, `padLen` is the `Nat`
`blockSize - len(src) % blockSize`. -/
theorem padLenInt_toNat (s : List Nat) (b : Int) (h1 : 1 ≤ b) :
    (padLenInt s b).toNat = b.toNat - s.length % b.toNat := by
  have hb : ((b.toNat : Int)) = b := Int.toNat_of_nonneg (by omega)
  have ht : Int.tmod (s.length : Int) b = ((s.length % b.toNat : Nat) : Int) := by
    conv_lhs => rw [← hb]
    rw [tmod_cast_nat]
  unfold padLenInt
  rw [ht]
  omega

/-- For an in-range block size, `Pad` succeeds and appends `padLen`
copies of the byte value `padLen`. -/
theorem pad_ok_eq (s : List Nat) (b : Int) (h1 : 1 ≤ b) (h2 : b ≤ 255) :
    Pad s b = Except.ok (s ++ List.replicate (b.toNat - s.length % b.toNat)
      (b.toNat - s.length % b.toNat)) := by
  have hguard : ¬ (b < 1 ∨ b > 255) := by omega
  have hlt : s.length % b.toNat < b.toNat := Nat.mod_lt _ (by omega)
  have hmod : (b.toNat - s.length % b.toNat) % 256 = b.toNat - s.length % b.toNat :=
    Nat.mod_eq_of_lt (by omega)
  unfold Pad
  rw [if_neg hguard, padLenInt_toNat s b h1, hmod]

/-- The padding amount is at least one byte. -/
theorem padLen_pos (n bs : Nat) (h : 1 ≤ bs) : 1 ≤ bs - n % bs := by
  have := Nat.mod_lt n (show 0 < bs by omega)
  omega

/-- Adding the padding amount lands on a multiple of the block size. -/
theorem padLen_multiple (n bs : Nat) (h : 1 ≤ bs) :
    (n + (bs - n % bs)) % bs = 0 := by
  have hdm := Nat.div_add_mod n bs
  have hlt : n % bs < bs := Nat.mod_lt n (by omega)
  have hsum : n + (bs - n % bs) = bs * (n / bs + 1) := by
    rw [Nat.mul_add, Nat.mul_one]
    omega
  rw [hsum]
  exact Nat.mul_mod_right bs _

/-- The last byte of a sequence ending in a nonempty replicated suffix
is the replicated value. -/
theorem unpadMarker_append_replicate (s : List Nat) (p v : Nat) (h1 : 1 ≤ p) :
    unpadMarker (s ++ List.replicate p v) = v := by
  unfold unpadMarker
  rw [List.length_append, List.length_replicate,
    List.getD_append_right _ _ _ _ (by omega)]
  have hidx : s.length + p - 1 - s.length = p - 1 := by omega
  rw [hidx, List.getD_eq_getElem _ _ (by rw [List.length_replicate]; omega),
    List.getElem_replicate]

/-- The verification loop accepts a suffix of `p` bytes all equal to
`p`, for any byte-sized `p`. -/
theorem checkPadding_replicate (p : Nat) (h2 : p ≤ 255) :
    checkPadding (List.replicate p p) p = true := by
  unfold checkPadding
  rw [List.all_eq_true]
  intro i hi
  rw [List.mem_range] at hi
  have hg : (List.replicate p p).getD i 0 = p := by
    rw [List.getD_eq_getElem _ _ (by rw [List.length_replicate]; exact hi),
      List.getElem_replicate]
  rw [hg, Nat.mod_eq_of_lt (by omega)]
  exact beq_self_eq_true p

/-- `Unpad` on a sequence ending in `p` copies of `p` (with
`1 ≤ p ≤ 255`) strips exactly that suffix. -/
theorem unpad_append_replicate (s : List Nat) (p : Nat) (h1 : 1 ≤ p) (h2 : p ≤ 255) :
    Unpad (s ++ List.replicate p p) = Except.ok s := by
  have hlen : (s ++ List.replicate p p).length = s.length + p := by
    rw [List.length_append, List.length_replicate]
  have hmark : unpadMarker (s ++ List.replicate p p) = p :=
    unpadMarker_append_replicate s p p h1
  have hpad : unpadPadding (s ++ List.replicate p p) = List.replicate p p := by
    unfold unpadPadding
    rw [hmark, hlen]
    have hsub : s.length + p - p = s.length := by omega
    rw [hsub]
    exact List.drop_left s _
  unfold Unpad
  rw [hmark, hpad, hlen]
  rw [if_neg (by omega), if_neg (by omega), if_neg (by omega),
    if_pos (checkPadding_replicate p h2)]
  have hsub : s.length + p - p = s.length := by omega
  rw [hsub, List.take_left]

/-- Branch equation of `Unpad`: zero last byte. -/
theorem Unpad_eq_zero_marker (src : List Nat) (h0 : 0 < src.length)
    (h1 : unpadMarker src = 0) : Unpad src = Except.error padMismatchErrMsg := by
  unfold Unpad
  rw [if_neg (by omega), if_pos h1]

/-- Branch equation of `Unpad`: last byte exceeds the total length. -/
theorem Unpad_eq_big_marker (src : List Nat) (h0 : 0 < src.length)
    (h1 : unpadMarker src ≠ 0) (h2 : unpadMarker src > src.length) :
    Unpad src = Except.error padLengthErrMsg := by
  unfold Unpad
  rw [if_neg (by omega), if_neg h1, if_pos h2]

/-- Branch equation of `Unpad`: a padding byte fails verification. -/
theorem Unpad_eq_mismatch (src : List Nat) (h0 : 0 < src.length)
    (h1 : unpadMarker src ≠ 0) (h2 : ¬ unpadMarker src > src.length)
    (h3 : checkPadding (unpadPadding src) (unpadMarker src) = false) :
    Unpad src = Except.error padMismatchErrMsg := by
  unfold Unpad
  rw [if_neg (by omega), if_neg h1, if_neg h2, if_neg (by simp [h3])]

/-- Branch equation of `Unpad`: all guards pass and the padding is
stripped. -/
theorem Unpad_eq_ok (src : List Nat) (h0 : 0 < src.length)
    (h1 : unpadMarker src ≠ 0) (h2 : ¬ unpadMarker src > src.length)
    (h3 : checkPadding (unpadPadding src) (unpadMarker src) = true) :
    Unpad src = Except.ok (src.take (src.length - unpadMarker src)) := by
  unfold Unpad
  rw [if_neg (by omega), if_neg h1, if_neg h2, if_pos h3]

/-- On a suffix whose length equals the marker, the verification loop
accepts exactly when every suffix byte equals the marker (for a
byte-sized marker). -/
theorem checkPadding_eq_forall (l : List Nat) (p : Nat) (hl : l.length = p)
    (hp : p < 256) : checkPadding l p = true ↔ ∀ x ∈ l, x = p := by
  unfold checkPadding
  rw [List.all_eq_true]
  constructor
  · intro h x hx
    obtain ⟨i, hi, hxe⟩ := List.mem_iff_getElem.mp hx
    have hh := h i (List.mem_range.mpr (by omega))
    rw [List.getD_eq_getElem _ _ hi, Nat.mod_eq_of_lt hp] at hh
    rw [← hxe]
    exact eq_of_beq hh
  · intro h i hi
    rw [List.mem_range] at hi
    have hii : i < l.length := by omega
    rw [List.getD_eq_getElem _ _ hii, Nat.mod_eq_of_lt hp]
    exact beq_iff_eq.mpr (h _ (List.getElem_mem hii))

/-- The marker read by `Unpad` is an element of the input, hence a byte
value when the input is a byte sequence. -/
theorem unpadMarker_lt_256 (src : List Nat) (h0 : src ≠ [])
    (hb : ∀ x ∈ src, x < 256) : unpadMarker src < 256 := by
  have hlen : 0 < src.length := List.length_pos.mpr h0
  have hmem : unpadMarker src ∈ src := by
    unfold unpadMarker
    rw [List.getD_eq_getElem _ _ (by omega)]
    exact List.getElem_mem (by omega)
  exact hb _ hmem

/-- The suffix the verification loop walks has exactly `padLen` bytes
once the length guard has passed. -/
theorem unpadPadding_length (src : List Nat) (h2 : unpadMarker src ≤ src.length) :
    (unpadPadding src).length = unpadMarker src := by
  unfold unpadPadding
  rw [List.length_drop]
  omega

example : Pad [0xDE, 0xAD, 0xBE, 0xEF] 8 =
    Except.ok [0xDE, 0xAD, 0xBE, 0xEF, 0x04, 0x04, 0x04, 0x04] := by decide

example : Pad [] 16 = Except.ok (List.replicate 16 16) := by decide

example : Unpad [0xDE, 0xAD, 0xBE, 0xEF, 0x04, 0x04, 0x04, 0x04] =
    Except.ok [0xDE, 0xAD, 0xBE, 0xEF] := by decide

example : Unpad [1, 2, 3, 0] = Except.error padMismatchErrMsg := by decide

example : Unpad [5] = Except.error padLengthErrMsg := by decide

example : Unpad [] = Except.error emptyErrMsg := by decide

example : Pad [1] 0 = Except.error blockSizeErrMsg := by decide

example : Pad [1] 256 = Except.error blockSizeErrMsg := by decide

/-- Claim C1: round-trip — for every block size in `[1, 255]` and every
byte sequence `s`, `Unpad (Pad s blockSize)` succeeds and returns
exactly `s`. -/
theorem C1_pad_unpad_roundtrip (s : List Nat) (b : Int) (h1 : 1 ≤ b) (h2 : b ≤ 255) :
    ∃ padded, Pad s b = Except.ok padded ∧ Unpad padded = Except.ok s := by
  refine ⟨_, pad_ok_eq s b h1 h2, ?_⟩
  exact unpad_append_replicate s _ (padLen_pos s.length b.toNat (by omega)) (by omega)

/-- Witness for C1 at `s = {0xDE, 0xAD, 0xBE, 0xEF}`, `blockSize = 8`. -/
theorem C1_pad_unpad_roundtrip_witness :
    ∃ padded, Pad [0xDE, 0xAD, 0xBE, 0xEF] 8 = Except.ok padded ∧
      Unpad padded = Except.ok [0xDE, 0xAD, 0xBE, 0xEF] :=
  C1_pad_unpad_roundtrip [0xDE, 0xAD, 0xBE, 0xEF] 8 (by decide) (by decide)

/-- Claim C2: `Pad` postcondition — for an in-range block size, `Pad`
returns the source followed by `padLen` copies of the byte value
`padLen`, where `padLen = blockSize - len(s) mod blockSize` lies in
`[1, blockSize]`. -/
theorem C2_pad_postcondition (s : List Nat) (b : Int) (h1 : 1 ≤ b) (h2 : b ≤ 255) :
    Pad s b = Except.ok (s ++ List.replicate (b.toNat - s.length % b.toNat)
      (b.toNat - s.length % b.toNat)) ∧
    1 ≤ b.toNat - s.length % b.toNat ∧ b.toNat - s.length % b.toNat ≤ b.toNat :=
  ⟨pad_ok_eq s b h1 h2, padLen_pos s.length b.toNat (by omega), by omega⟩

/-- Witness for C2: the concrete scenario
`Pad {0xDE,0xAD,0xBE,0xEF} 8 = {0xDE,0xAD,0xBE,0xEF,4,4,4,4}`. -/
theorem C2_pad_postcondition_witness :
    Pad [0xDE, 0xAD, 0xBE, 0xEF] 8 =
      Except.ok [0xDE, 0xAD, 0xBE, 0xEF, 0x04, 0x04, 0x04, 0x04] := by
  rw [(C2_pad_postcondition [0xDE, 0xAD, 0xBE, 0xEF] 8 (by decide) (by decide)).1]
  decide

/-- Claim C5: `Pad` fails with the `InvalidBlockSize` error exactly when
`blockSize < 1` or `blockSize > 255`, producing no output sequence; for
in-range block sizes it produces an output. -/
theorem C5_pad_blocksize_validation (s : List Nat) (b : Int) :
    (Pad s b = Except.error blockSizeErrMsg ↔ (b < 1 ∨ b > 255)) ∧
    ((∃ out, Pad s b = Except.ok out) ↔ (1 ≤ b ∧ b ≤ 255)) := by
  constructor
  · constructor
    · intro h
      by_contra hc
      rw [pad_ok_eq s b (by omega) (by omega)] at h
      exact absurd h (by simp)
    · intro h
      unfold Pad
      rw [if_pos h]
  · constructor
    · rintro ⟨out, h⟩
      by_contra hc
      unfold Pad at h
      rw [if_pos (by omega)] at h
      exact absurd h (by simp)
    · intro h
      exact ⟨_, pad_ok_eq s b h.1 h.2⟩

/-- Claim C6: `Unpad` fails with the `EmptyInput` error exactly when its
input is the empty sequence. -/
theorem C6_unpad_empty_input (src : List Nat) :
    Unpad src = Except.error emptyErrMsg ↔ src = [] := by
  constructor
  · intro h
    by_contra hc
    have hlen : 0 < src.length := List.length_pos.mpr hc
    by_cases h1 : unpadMarker src = 0
    · rw [Unpad_eq_zero_marker src hlen h1] at h
      exact absurd (Except.error.inj h) (by decide)
    by_cases h2 : unpadMarker src > src.length
    · rw [Unpad_eq_big_marker src hlen h1 h2] at h
      exact absurd (Except.error.inj h) (by decide)
    by_cases h3 : checkPadding (unpadPadding src) (unpadMarker src) = true
    · rw [Unpad_eq_ok src hlen h1 h2 h3] at h
      exact absurd h (by simp)
    · rw [Unpad_eq_mismatch src hlen h1 h2 (by simpa using h3)] at h
      exact absurd (Except.error.inj h) (by decide)
  · intro h
    rw [h]
    decide

/-- Claim C7: length invariant of `Pad` — for an in-range block size the
output length is a multiple of the block size and strictly greater than
the input length. -/
theorem C7_pad_length_invariant (s : List Nat) (b : Int) (h1 : 1 ≤ b) (h2 : b ≤ 255) :
    ∃ out, Pad s b = Except.ok out ∧ out.length % b.toNat = 0 ∧
      s.length < out.length := by
  refine ⟨_, pad_ok_eq s b h1 h2, ?_, ?_⟩
  · rw [List.length_append, List.length_replicate]
    exact padLen_multiple s.length b.toNat (by omega)
  · rw [List.length_append, List.length_replicate]
    have := padLen_pos s.length b.toNat (by omega)
    omega

/-- Witness for C7 at `s = {1, 2, 3}`, `blockSize = 3` (length already a
multiple of the block size). -/
theorem C7_pad_length_invariant_witness :
    ∃ out, Pad [1, 2, 3] 3 = Except.ok out ∧ out.length % (3 : Int).toNat = 0 ∧
      [1, 2, 3].length < out.length :=
  C7_pad_length_invariant [1, 2, 3] 3 (by decide) (by decide)

/-- Claim C8: full-block padding — when the input length is already a
multiple of an in-range block size, `Pad` appends exactly `blockSize`
bytes, each equal to `blockSize`. -/
theorem C8_pad_full_block (s : List Nat) (b : Int) (h1 : 1 ≤ b) (h2 : b ≤ 255)
    (h3 : s.length % b.toNat = 0) :
    Pad s b = Except.ok (s ++ List.replicate b.toNat b.toNat) := by
  have h := pad_ok_eq s b h1 h2
  rw [h3, Nat.sub_zero] at h
  exact h

/-- Witness for C8: the concrete scenario — `Pad {} 16` yields sixteen
`0x10` bytes, and `Unpad` of that yields `{}`. -/
theorem C8_pad_full_block_witness :
    Pad [] 16 = Except.ok [0x10, 0x10, 0x10, 0x10, 0x10, 0x10, 0x10, 0x10,
      0x10, 0x10, 0x10, 0x10, 0x10, 0x10, 0x10, 0x10] ∧
    Unpad [0x10, 0x10, 0x10, 0x10, 0x10, 0x10, 0x10, 0x10,
      0x10, 0x10, 0x10, 0x10, 0x10, 0x10, 0x10, 0x10] = Except.ok [] := by
  constructor
  · rw [C8_pad_full_block [] 16 (by decide) (by decide) (by decide)]
    decide
  · decide

/-- Claim C3: `Unpad` validation — for every non-empty byte sequence,
with `n` the value of its last byte, `Unpad` fails with an
`InvalidPadding` error iff `n = 0`, or `n` exceeds the total length, or
some byte among the last `n` bytes differs from `n`; otherwise it
succeeds and returns the input minus its last `n` bytes. -/
theorem C3_unpad_validation (src : List Nat) (h0 : src ≠ [])
    (hb : ∀ x ∈ src, x < 256) :
    (isInvalidPadding (Unpad src) = true ↔
      (unpadMarker src = 0 ∨ unpadMarker src > src.length ∨
        ∃ x ∈ unpadPadding src, x ≠ unpadMarker src)) ∧
    (¬ (unpadMarker src = 0 ∨ unpadMarker src > src.length ∨
        ∃ x ∈ unpadPadding src, x ≠ unpadMarker src) →
      Unpad src = Except.ok (src.take (src.length - unpadMarker src))) := by
  have hlen : 0 < src.length := List.length_pos.mpr h0
  have hm : unpadMarker src < 256 := unpadMarker_lt_256 src h0 hb
  by_cases h1 : unpadMarker src = 0
  · refine ⟨⟨fun _ => Or.inl h1, fun _ => ?_⟩, fun hn => absurd (Or.inl h1) hn⟩
    rw [Unpad_eq_zero_marker src hlen h1]
    simp [isInvalidPadding]
  by_cases h2 : unpadMarker src > src.length
  · refine ⟨⟨fun _ => Or.inr (Or.inl h2), fun _ => ?_⟩,
      fun hn => absurd (Or.inr (Or.inl h2)) hn⟩
    rw [Unpad_eq_big_marker src hlen h1 h2]
    simp [isInvalidPadding]
  have hplen : (unpadPadding src).length = unpadMarker src :=
    unpadPadding_length src (by omega)
  have hiff := checkPadding_eq_forall (unpadPadding src) (unpadMarker src) hplen hm
  by_cases h3 : checkPadding (unpadPadding src) (unpadMarker src) = true
  · have hok := Unpad_eq_ok src hlen h1 h2 h3
    refine ⟨⟨fun hinv => ?_, fun hp => ?_⟩, fun _ => hok⟩
    · rw [hok] at hinv
      exact absurd hinv (by simp [isInvalidPadding])
    · rcases hp with hp | hp | ⟨x, hx, hne⟩
      · exact absurd hp h1
      · exact absurd hp h2
      · exact absurd (hiff.mp h3 x hx) hne
  · have herr := Unpad_eq_mismatch src hlen h1 h2 (by simpa using h3)
    have hex : ∃ x ∈ unpadPadding src, x ≠ unpadMarker src := by
      by_contra hc
      push_neg at hc
      exact h3 (hiff.mpr hc)
    refine ⟨⟨fun _ => Or.inr (Or.inr hex), fun _ => ?_⟩,
      fun hn => absurd (Or.inr (Or.inr hex)) hn⟩
    rw [herr]
    simp [isInvalidPadding]

/-- Witness for C3 at the tampered input `{2, 1, 2}` (last byte `2`, but
the byte before it is `1`): the mismatch disjunct holds and the result
is an `InvalidPadding` error. -/
theorem C3_unpad_validation_witness :
    isInvalidPadding (Unpad [2, 1, 2]) = true :=
  (C3_unpad_validation [2, 1, 2] (by decide) (by decide)).1.mpr
    (Or.inr (Or.inr ⟨1, by decide, by decide⟩))

/-- C4 counterexample: the length-check branch of `Unpad` carries a
different message text than the zero-marker branch, so the failure
causes are distinguishable. -/
theorem C4_counterexample :
    Unpad [0x00] = Except.error padMismatchErrMsg ∧
    Unpad [0x05] = Except.error padLengthErrMsg ∧
    padMismatchErrMsg ≠ padLengthErrMsg :=
  ⟨by decide, by decide, by decide⟩

/-- Claim C4 (amended): the zero-marker check and the mismatched-byte
check of `Unpad` produce one identical error message, while the
marker-exceeds-length check produces a different message, so that
failure cause is distinguishable from the other two. -/
theorem C4_unpad_error_messages :
    (∀ src : List Nat, src ≠ [] → unpadMarker src = 0 →
      Unpad src = Except.error padMismatchErrMsg) ∧
    (∀ src : List Nat, src ≠ [] → unpadMarker src ≠ 0 →
      unpadMarker src > src.length → Unpad src = Except.error padLengthErrMsg) ∧
    (∀ src : List Nat, src ≠ [] → unpadMarker src ≠ 0 →
      unpadMarker src ≤ src.length →
      checkPadding (unpadPadding src) (unpadMarker src) = false →
      Unpad src = Except.error padMismatchErrMsg) ∧
    padMismatchErrMsg ≠ padLengthErrMsg := by
  refine ⟨?_, ?_, ?_, by decide⟩
  · intro src h0 h1
    exact Unpad_eq_zero_marker src (List.length_pos.mpr h0) h1
  · intro src h0 h1 h2
    exact Unpad_eq_big_marker src (List.length_pos.mpr h0) h1 h2
  · intro src h0 h1 h2 h3
    exact Unpad_eq_mismatch src (List.length_pos.mpr h0) h1 (by omega) h3

/-- Witness for C4 (amended) at the inputs `{0}`, `{3, 5, 1, 2}` and
`{7, 7}`, one per failing branch. -/
theorem C4_unpad_error_messages_witness :
    Unpad [0x00] = Except.error padMismatchErrMsg ∧
    Unpad [0x03, 0x05, 0x01, 0x02] = Except.error padMismatchErrMsg ∧
    Unpad [0x07, 0x07] = Except.error padLengthErrMsg :=
  ⟨C4_unpad_error_messages.1 [0x00] (by decide) (by decide),
   C4_unpad_error_messages.2.2.1 [0x03, 0x05, 0x01, 0x02] (by decide) (by decide)
     (by decide) (by decide),
   C4_unpad_error_messages.2.1 [0x07, 0x07] (by decide) (by decide) (by decide)⟩

/-- Claim C9: implicit safety of the verification loop — once the guards
have passed (non-empty input, marker in `[1, len]`), the original length
is non-negative, the padding suffix has exactly `padLen` bytes, and
every index the loop reads is in bounds. -/
theorem C9_unpad_loop_in_bounds (src : List Nat) (h0 : src ≠ [])
    (h1 : unpadMarker src ≠ 0) (h2 : unpadMarker src ≤ src.length) :
    0 ≤ (src.length : Int) - (unpadMarker src : Int) ∧
    (unpadPadding src).length = unpadMarker src ∧
    (∀ i, i < unpadMarker src → i < (unpadPadding src).length) := by
  have hlen := unpadPadding_length src h2
  exact ⟨by omega, hlen, fun i hi => by rw [hlen]; exact hi⟩

/-- Witness for C9 at the input `{2, 2}`. -/
theorem C9_unpad_loop_in_bounds_witness :
    0 ≤ (([2, 2] : List Nat).length : Int) - (unpadMarker [2, 2] : Int) ∧
    (unpadPadding [2, 2]).length = unpadMarker [2, 2] ∧
    (∀ i, i < unpadMarker [2, 2] → i < (unpadPadding [2, 2]).length) :=
  C9_unpad_loop_in_bounds [2, 2] (by decide) (by decide) (by decide)

/-- Claim C10: whenever `Unpad` succeeds its output is strictly shorter
than its input; it never returns the input unchanged. -/
theorem C10_unpad_strict_shrink (src out : List Nat)
    (h : Unpad src = Except.ok out) : out.length < src.length := by
  by_cases h0 : src.length ≤ 0
  · unfold Unpad at h
    rw [if_pos h0] at h
    exact absurd h (by simp)
  by_cases h1 : unpadMarker src = 0
  · rw [Unpad_eq_zero_marker src (by omega) h1] at h
    exact absurd h (by simp)
  by_cases h2 : unpadMarker src > src.length
  · rw [Unpad_eq_big_marker src (by omega) h1 h2] at h
    exact absurd h (by simp)
  by_cases h3 : checkPadding (unpadPadding src) (unpadMarker src) = true
  · rw [Unpad_eq_ok src (by omega) h1 h2 h3] at h
    have hout := Except.ok.inj h
    rw [← hout, List.length_take]
    omega
  · rw [Unpad_eq_mismatch src (by omega) h1 h2 (by simpa using h3)] at h
    exact absurd h (by simp)

/-- Witness for C10 at the input `{0xAB, 1}`: the output `{0xAB}` is
strictly shorter. -/
theorem C10_unpad_strict_shrink_witness :
    ([0xAB] : List Nat).length < ([0xAB, 0x01] : List Nat).length :=
  C10_unpad_strict_shrink [0xAB, 0x01] [0xAB] (by decide)

end Pkcs7
